import Mathlib

/-!
Verification development for the Qwen image/video generation service.

The first part embeds the frontend code that is present in the repository
(src/frontend/src/hooks/useTask.ts, src/frontend/src/components/tasks/TaskCard.tsx,
src/frontend/app.js, and the TextToVideoPage submit handler).  The second part
models the backend Task Execution Engine described by the specification; the
backend itself is not among the repository's source files, so those definitions
are marked `Modelled from the spec:` and are faithful to the specification text.
-/

namespace Frontend

/-! Task status values, from the frontend TaskStatus union type used by
src/frontend/src/hooks/useTask.ts. -/

inductive TaskStatus
  | pending
  | running
  | completed
  | failed
  | cancelled
deriving DecidableEq, Repr

/-- The fields of a polled Task that useTask.ts reads: its id, status and error. -/
structure Task where
  task_id : String
  status : TaskStatus
  error : Option String
deriving DecidableEq, Repr

/-- The terminal statuses, from useTask.ts line 43:
completedStatuses = ['completed', 'failed', 'cancelled']. -/
def completedStatuses : List TaskStatus := [.completed, .failed, .cancelled]

/-- The callback (if any) that one round of polling fires. -/
inductive PollCallback
  | onComplete (t : Task)
  | onError (msg : String)
  | noCallback
deriving DecidableEq, Repr

/-- JavaScript `a || b` on strings: the default is used when the left side is
undefined or the empty string (both are falsy). -/
def jsOrString (o : Option String) (d : String) : String :=
  match o with
  | some s => if s = "" then d else s
  | none => d

/-- What one execution of the poll closure does after a successful status fetch:
whether it stops the interval and which callback it fires. -/
structure PollEffect where
  stopPolling : Bool
  callback : PollCallback
deriving DecidableEq, Repr

/-- The poll closure of useTask.ts (lines 39-56): on a terminal status it clears
the interval and fires onComplete (completed) or onError (failed, with the
task's error or the default message); otherwise it keeps polling. -/
def poll (status : Task) : PollEffect :=
  if status.status ∈ completedStatuses then
    { stopPolling := true
      callback :=
        if status.status = .completed then .onComplete status
        else if status.status = .failed then
          .onError (jsOrString status.error "任务执行失败")
        else .noCallback }
  else
    { stopPolling := false, callback := .noCallback }

/-- The sequence of observations a polling client makes, given the sequence of
statuses successive fetches would return: it observes each status in turn and
stops after the first one on which poll clears the interval. -/
def pollTrace : List Task → List Task
  | [] => []
  | obs :: rest =>
    if (poll obs).stopPolling then [obs] else obs :: pollTrace rest

/-! TaskCard.tsx (src/frontend/src/components/tasks/TaskCard.tsx). -/

/-- The display configuration TaskCard keeps per task type: label, icon name
and color class. -/
structure TaskTypeDisplay where
  label : String
  icon : String
  color : String
deriving DecidableEq, Repr

/-- The text_to_image entry of taskTypeConfig, which is also the fallback. -/
def textToImageDisplay : TaskTypeDisplay :=
  { label := "文生图", icon := "ImagePlus", color := "text-blue-500" }

/-- The taskTypeConfig record of TaskCard.tsx (lines 16-22), as an association
list keyed by the task_type string. -/
def taskTypeConfig : List (String × TaskTypeDisplay) :=
  [("text_to_image", textToImageDisplay),
   ("image_edit", { label := "图像编辑", icon := "Pencil", color := "text-green-500" }),
   ("batch_edit", { label := "批量编辑", icon := "Layers", color := "text-purple-500" }),
   ("text_to_video", { label := "文生视频", icon := "Video", color := "text-orange-500" }),
   ("image_to_video", { label := "图生视频", icon := "Film", color := "text-pink-500" })]

/-- JavaScript property lookup taskTypeConfig[ty]: undefined when the key is
not present. -/
def lookupTaskTypeConfig (ty : String) : Option TaskTypeDisplay :=
  (taskTypeConfig.find? (fun p => p.1 = ty)).map (·.2)

/-- TaskCard line 25: `taskTypeConfig[task.task_type] || taskTypeConfig.text_to_image`. -/
def taskCardConfig (ty : String) : TaskTypeDisplay :=
  match lookupTaskTypeConfig ty with
  | some c => c
  | none => textToImageDisplay

/-! app.js upload validation and batch prompt list (src/frontend/app.js). -/

/-- The fields of a browser File object that handleFile reads. -/
structure JsFile where
  size : Nat
  type : String
deriving DecidableEq, Repr

/-- The upload state handleFile may mutate: the selected file and whether the
preview has replaced the upload prompt. -/
structure UploadState where
  selectedFile : Option JsFile
  previewShown : Bool
deriving DecidableEq, Repr

/-- Outcome of a validated user action: rejected with a toast message, or
accepted. -/
inductive ActionResult
  | rejected (message : String)
  | accepted
deriving DecidableEq, Repr

/-- The MIME types handleFile allows (app.js line 122). -/
def allowedTypes : List String := ["image/jpeg", "image/png", "image/webp"]

/-- handleFile of app.js (lines 114-138): rejects a file over 20MB or of a
disallowed type, leaving the upload state untouched; otherwise selects the
file and shows its preview. -/
def handleFile (file : JsFile) (st : UploadState) : ActionResult × UploadState :=
  if file.size > 20 * 1024 * 1024 then
    (.rejected "文件大小不能超过 20MB", st)
  else if ¬ file.type ∈ allowedTypes then
    (.rejected "仅支持 JPG、PNG、WebP 格式", st)
  else
    (.accepted, { selectedFile := some file, previewShown := true })

/-- addPrompt of app.js (lines 357-375): refuses to grow the prompt list past
10 entries, otherwise appends a new empty prompt input. -/
def addPrompt (prompts : List String) : ActionResult × List String :=
  if prompts.length ≥ 10 then
    (.rejected "最多添加 10 个编辑提示", prompts)
  else
    (.accepted, prompts ++ [""])

/-! TextToVideoPage.handleSubmit (src/unnamed/part_001, lines 109-128): the
client-side guard run before the submit mutation fires. -/

/-- The quota cost of one video generation, from part_001 line 118. -/
def videoQuotaCost : Nat := 5

/-- What handleSubmit decides to do. -/
inductive SubmitGuard
  | emptyPrompt
  | quotaInsufficient
  | proceed
deriving DecidableEq, Repr

/-- TextToVideoPage.handleSubmit: rejects an empty (all-whitespace) prompt,
then rejects when remainingToday < 5, otherwise fires the mutation. -/
def handleSubmit (prompt : String) (remainingToday : Int) : SubmitGuard :=
  if prompt.trim = "" then .emptyPrompt
  else if remainingToday < (videoQuotaCost : Int) then .quotaInsufficient
  else .proceed

end Frontend

namespace Engine

/-! The Task Execution Engine.  The backend implementing it is not among the
repository's source files (only the frontend that calls it is), so every
definition here is modelled from the specification text and says so. -/

/-- Modelled from the spec: the per-user QuotaRecord of the Quota Ledger, with
its used and limit counters; the backend ledger is missing from the sources. -/
structure QuotaRecord where
  used : Nat
  limit : Nat
deriving DecidableEq, Repr

/-- Modelled from the spec: reserve fails with QuotaExceeded when
used + cost > limit, and otherwise increments used; the backend ledger is
missing from the sources. -/
def reserve (q : QuotaRecord) (cost : Nat) : Option QuotaRecord :=
  if q.used + cost > q.limit then none
  else some { q with used := q.used + cost }

/-- Modelled from the spec: refund decrements used by the reserved cost; the
backend ledger is missing from the sources. -/
def refund (q : QuotaRecord) (cost : Nat) : QuotaRecord :=
  { q with used := q.used - cost }

/-- Modelled from the spec: the lifecycle states of a Task. -/
inductive EngStatus
  | pending
  | running
  | completed
  | failed
  | cancelled
deriving DecidableEq, Repr

/-- The terminal states: completed, failed and cancelled. -/
def EngStatus.isTerminal : EngStatus → Bool
  | .completed => true
  | .failed => true
  | .cancelled => true
  | _ => false

/-- Modelled from the spec: the Task record kept by the Task Queue, with its
id, owner, reserved quota cost, status, result_ref, error and deleted_at
fields; the backend queue is missing from the sources. -/
structure EngTask where
  id : Nat
  owner : Nat
  cost : Nat
  status : EngStatus
  resultRef : Option Nat
  error : Option String
  deletedAt : Option Nat
deriving DecidableEq, Repr

/-- Modelled from the spec: the engine state, holding every Task in submission
order (the pending ones among them form the FIFO queue), the quota ledger, and
the next task id to assign; the backend is missing from the sources. -/
structure EngState where
  tasks : List EngTask
  quotas : List (Nat × QuotaRecord)
  nextId : Nat
deriving DecidableEq, Repr

/-- The quota record of one owner; an owner the ledger has never seen has no
allowance. -/
def getQuota (s : EngState) (owner : Nat) : QuotaRecord :=
  ((s.quotas.find? (fun p => p.1 = owner)).map (·.2)).getD { used := 0, limit := 0 }

/-- Replace one owner's quota record. -/
def setQuota (s : EngState) (owner : Nat) (q : QuotaRecord) : EngState :=
  { s with quotas := (owner, q) :: s.quotas.filter (fun p => ¬ p.1 = owner) }

/-- What submit returns: QuotaExceeded, or the new task id plus the queue
depth. -/
inductive SubmitResult
  | quotaExceeded
  | accepted (task_id : Nat) (queue_position : Nat)
deriving DecidableEq, Repr

/-- The number of pending tasks, the queue depth a submission reports. -/
def countPending (ts : List EngTask) : Nat :=
  (ts.filter (fun t => t.status = .pending)).length

/-- Modelled from the spec: submit reserves quota (failing with QuotaExceeded
and creating no task when the reservation fails), then creates a Task in
pending, appends it to the FIFO queue and returns its id plus the current
queue depth; the backend is missing from the sources. -/
def submit (s : EngState) (owner cost : Nat) : EngState × SubmitResult :=
  match reserve (getQuota s owner) cost with
  | none => (s, .quotaExceeded)
  | some q =>
    let t : EngTask :=
      { id := s.nextId, owner := owner, cost := cost, status := .pending,
        resultRef := none, error := none, deletedAt := none }
    let s' : EngState :=
      { setQuota s owner q with tasks := s.tasks ++ [t], nextId := s.nextId + 1 }
    (s', .accepted t.id (countPending s'.tasks))

/-- The position of the oldest pending task, if any. -/
def firstPendingIdx : List EngTask → Option Nat
  | [] => none
  | t :: ts =>
    if t.status = .pending then some 0 else (firstPendingIdx ts).map (· + 1)

/-- Transition a task to running, as dispatch does. -/
def markRunning (t : EngTask) : EngTask :=
  { t with status := .running }

/-- Apply a function to the element at one position of a list. -/
def modifyAt (f : EngTask → EngTask) : Nat → List EngTask → List EngTask
  | _, [] => []
  | 0, t :: ts => f t :: ts
  | n + 1, t :: ts => t :: modifyAt f n ts

/-- Modelled from the spec: when a slot is free the dispatcher pops the oldest
pending task and transitions it to running; the returned value is the position
in the task list of the task dispatched, if any; the backend is missing from
the sources. -/
def dispatch (s : EngState) (freeSlots : Nat) : EngState × Option Nat :=
  if freeSlots = 0 then (s, none)
  else
    match firstPendingIdx s.tasks with
    | none => (s, none)
    | some i => ({ s with tasks := modifyAt markRunning i s.tasks }, some i)

/-- Modelled from the spec: a running task that succeeds transitions to
completed with result_ref set to its artifact handle; the backend is missing
from the sources. -/
def completeTask (s : EngState) (id ref : Nat) : EngState :=
  { s with tasks := s.tasks.map (fun t =>
      if t.id = id ∧ t.status = .running then
        { t with status := .completed, resultRef := some ref, error := none }
      else t) }

/-- Modelled from the spec: a running task that fails or crashes transitions
to failed with its error recorded; the backend is missing from the sources. -/
def failTask (s : EngState) (id : Nat) (msg : String) : EngState :=
  { s with tasks := s.tasks.map (fun t =>
      if t.id = id ∧ t.status = .running then
        { t with status := .failed, error := some msg, resultRef := none }
      else t) }

/-- Modelled from the spec: cancel transitions a pending or running task to
cancelled and refunds its quota, while on an already-terminal task it is a
no-op returning the current state; the backend is missing from the sources. -/
def cancelTask (s : EngState) (id : Nat) : EngState × Option EngTask :=
  match s.tasks.find? (fun t => t.id = id) with
  | none => (s, none)
  | some t =>
    if t.status.isTerminal then (s, some t)
    else
      let s' : EngState :=
        { s with tasks := s.tasks.map (fun u =>
            if u.id = id ∧ (u.status = .pending ∨ u.status = .running) then
              { u with status := .cancelled, resultRef := none, error := none }
            else u) }
      let s'' := setQuota s' t.owner (refund (getQuota s' t.owner) t.cost)
      (s'', s''.tasks.find? (fun u => u.id = id))

/-- The per-task effect of soft_delete: set deleted_at on the matching
terminal task. -/
def setDeleted (id now : Nat) (t : EngTask) : EngTask :=
  if t.id = id ∧ t.status.isTerminal = true then { t with deletedAt := some now }
  else t

/-- Modelled from the spec: soft_delete sets deleted_at on a terminal task and
is rejected (here: a no-op) on a pending or running one; the backend is
missing from the sources. -/
def softDeleteTask (s : EngState) (id now : Nat) : EngState :=
  { s with tasks := s.tasks.map (setDeleted id now) }

/-- The per-task effect of restore: clear deleted_at on the matching terminal
task. -/
def clearDeleted (id : Nat) (t : EngTask) : EngTask :=
  if t.id = id ∧ t.status.isTerminal = true then { t with deletedAt := none }
  else t

/-- Modelled from the spec: restore clears deleted_at on a terminal task; the
backend is missing from the sources. -/
def restoreTask (s : EngState) (id : Nat) : EngState :=
  { s with tasks := s.tasks.map (clearDeleted id) }

/-- Modelled from the spec: list_history excludes soft-deleted tasks; the
backend is missing from the sources. -/
def listHistory (s : EngState) : List EngTask :=
  s.tasks.filter (fun t => t.deletedAt = none)

/-- One engine operation, for reachability of engine states. -/
inductive EngOp
  | submit (owner cost : Nat)
  | dispatch (freeSlots : Nat)
  | complete (id ref : Nat)
  | fail (id : Nat) (msg : String)
  | cancel (id : Nat)
  | softDelete (id now : Nat)
  | restore (id : Nat)
deriving DecidableEq, Repr

/-- Apply one operation to the engine state. -/
def applyOp (s : EngState) : EngOp → EngState
  | .submit owner cost => (submit s owner cost).1
  | .dispatch free => (dispatch s free).1
  | .complete id ref => completeTask s id ref
  | .fail id msg => failTask s id msg
  | .cancel id => (cancelTask s id).1
  | .softDelete id now => softDeleteTask s id now
  | .restore id => restoreTask s id

/-- The engine's initial state: no tasks, a given quota ledger. -/
def initState (quotas : List (Nat × QuotaRecord)) : EngState :=
  { tasks := [], quotas := quotas, nextId := 0 }

/-- Run a sequence of operations from the initial state. -/
def runOps (quotas : List (Nat × QuotaRecord)) (ops : List EngOp) : EngState :=
  ops.foldl applyOp (initState quotas)

/-- The relationship between a task's status and its result_ref and error
fields that every reachable engine state maintains: completed tasks carry a
result_ref and no error, failed tasks an error and no result_ref, and every
other state neither. -/
def statusFieldsOk (t : EngTask) : Prop :=
  match t.status with
  | .completed => t.resultRef.isSome = true ∧ t.error = none
  | .failed => t.error.isSome = true ∧ t.resultRef = none
  | _ => t.resultRef = none ∧ t.error = none

theorem mem_map_ok {f : EngTask → EngTask}
    (hf : ∀ u, statusFieldsOk u → statusFieldsOk (f u))
    {l : List EngTask} (hl : ∀ u ∈ l, statusFieldsOk u) :
    ∀ t ∈ l.map f, statusFieldsOk t := by
  intro t ht
  rcases List.mem_map.1 ht with ⟨u, hu, rfl⟩
  exact hf u (hl u hu)

theorem statusFieldsOk_markRunning {u : EngTask} (hp : u.status = .pending)
    (hu : statusFieldsOk u) : statusFieldsOk (markRunning u) := by
  simp [statusFieldsOk, hp] at hu
  simp [statusFieldsOk, markRunning]
  exact hu

theorem statusFieldsOk_setDeletedAt (u : EngTask) (d : Option Nat)
    (hu : statusFieldsOk u) : statusFieldsOk { u with deletedAt := d } := by
  rcases u with ⟨uid, uo, uc, ust, ur, ue, ud⟩
  cases ust <;> simpa [statusFieldsOk] using hu

theorem firstPending_modify_ok :
    ∀ (l : List EngTask) (i : Nat), firstPendingIdx l = some i →
      (∀ u ∈ l, statusFieldsOk u) →
      ∀ t ∈ modifyAt markRunning i l, statusFieldsOk t := by
  intro l
  induction l with
  | nil => intro i hi; simp [firstPendingIdx] at hi
  | cons a as ih =>
    intro i hi hall t ht
    by_cases hp : a.status = .pending
    · simp [firstPendingIdx, hp] at hi
      subst hi
      simp [modifyAt] at ht
      rcases ht with rfl | ht
      · exact statusFieldsOk_markRunning hp (hall a (by simp))
      · exact hall t (by simp [ht])
    · simp [firstPendingIdx, hp, Option.map_eq_some'] at hi
      rcases hi with ⟨j, hj, rfl⟩
      simp [modifyAt] at ht
      rcases ht with rfl | ht
      · exact hall t (by simp)
      · exact ih j hj (fun u hu => hall u (by simp [hu])) t ht

theorem applyOp_preserves (s : EngState) (op : EngOp)
    (h : ∀ u ∈ s.tasks, statusFieldsOk u) :
    ∀ t ∈ (applyOp s op).tasks, statusFieldsOk t := by
  cases op with
  | submit owner cost =>
    intro t ht
    simp only [applyOp, submit] at ht
    cases hr : reserve (getQuota s owner) cost with
    | none => rw [hr] at ht; exact h t ht
    | some q =>
      rw [hr] at ht
      simp [setQuota] at ht
      rcases ht with ht | rfl
      · exact h t ht
      · simp [statusFieldsOk]
  | dispatch free =>
    intro t ht
    simp only [applyOp, dispatch] at ht
    by_cases hf : free = 0
    · simp [hf] at ht; exact h t ht
    · rw [if_neg hf] at ht
      cases hi : firstPendingIdx s.tasks with
      | none => rw [hi] at ht; exact h t ht
      | some i =>
        rw [hi] at ht
        exact firstPending_modify_ok s.tasks i hi h t ht
  | complete id ref =>
    simp only [applyOp, completeTask]
    refine mem_map_ok (fun u hu => ?_) h
    by_cases hg : u.id = id ∧ u.status = .running
    · simp [hg, statusFieldsOk]
    · simpa [hg] using hu
  | fail id msg =>
    simp only [applyOp, failTask]
    refine mem_map_ok (fun u hu => ?_) h
    by_cases hg : u.id = id ∧ u.status = .running
    · simp [hg, statusFieldsOk]
    · simpa [hg] using hu
  | cancel id =>
    intro t ht
    simp only [applyOp, cancelTask] at ht
    cases hfind : s.tasks.find? (fun t => t.id = id) with
    | none => rw [hfind] at ht; exact h t ht
    | some u =>
      rw [hfind] at ht
      by_cases hterm : u.status.isTerminal
      · simp [hterm] at ht; exact h t ht
      · simp only [hterm, Bool.false_eq_true, if_false, setQuota] at ht
        refine mem_map_ok (fun v hv => ?_) h t ht
        by_cases hg : v.id = id ∧ (v.status = .pending ∨ v.status = .running)
        · simp [hg, statusFieldsOk]
        · simpa [hg] using hv
  | softDelete id now =>
    simp only [applyOp, softDeleteTask]
    refine mem_map_ok (fun u hu => ?_) h
    unfold setDeleted
    by_cases hg : u.id = id ∧ u.status.isTerminal = true
    · rw [if_pos hg]; exact statusFieldsOk_setDeletedAt u _ hu
    · rw [if_neg hg]; exact hu
  | restore id =>
    simp only [applyOp, restoreTask]
    refine mem_map_ok (fun u hu => ?_) h
    unfold clearDeleted
    by_cases hg : u.id = id ∧ u.status.isTerminal = true
    · rw [if_pos hg]; exact statusFieldsOk_setDeletedAt u _ hu
    · rw [if_neg hg]; exact hu

theorem foldl_preserves (ops : List EngOp) :
    ∀ s : EngState, (∀ u ∈ s.tasks, statusFieldsOk u) →
      ∀ t ∈ (ops.foldl applyOp s).tasks, statusFieldsOk t := by
  induction ops with
  | nil => intro s h; simpa using h
  | cons op rest ih =>
    intro s h
    exact ih (applyOp s op) (applyOp_preserves s op h)

theorem runOps_ok (quotas : List (Nat × QuotaRecord)) (ops : List EngOp) :
    ∀ t ∈ (runOps quotas ops).tasks, statusFieldsOk t := by
  refine foldl_preserves ops (initState quotas) ?_
  intro u hu
  simp [initState] at hu

theorem firstPendingIdx_least :
    ∀ (l : List EngTask) (j : Nat), firstPendingIdx l = some j →
      ∀ (i : Nat) (hi : i < l.length), i < j →
        (l.get ⟨i, hi⟩).status ≠ .pending := by
  intro l
  induction l with
  | nil => intro j hj; simp [firstPendingIdx] at hj
  | cons a as ih =>
    intro j hj i hi hij
    by_cases hp : a.status = .pending
    · simp [firstPendingIdx, hp] at hj
      omega
    · simp [firstPendingIdx, hp, Option.map_eq_some'] at hj
      rcases hj with ⟨j', hj', rfl⟩
      cases i with
      | zero => simpa using hp
      | succ i' =>
        simpa using ih j' hj' i' (by simpa using hi) (by omega)

theorem map_fixes {f : EngTask → EngTask} :
    ∀ l : List EngTask, (∀ u ∈ l, f u = u) → l.map f = l := by
  intro l
  induction l with
  | nil => intro _; rfl
  | cons a as ih =>
    intro h
    simp only [List.map_cons, h a (by simp), ih (fun u hu => h u (by simp [hu]))]

end Engine

/-! Claim theorems. -/

/-- Claim C8: a client observes a task's outcome only by repeatedly polling its
state; polling continues on every observation of a non-terminal status and
stops exactly when the observed status first enters {completed, failed,
cancelled}.  The first part characterises one poll round; the second shows
that on a stream of observed statuses the polling run visits exactly the
non-terminal prefix plus the first terminal observation. -/
theorem useTask_polls_until_first_terminal :
    (∀ t : Frontend.Task,
        (Frontend.poll t).stopPolling = true
          ↔ (t.status = .completed ∨ t.status = .failed ∨ t.status = .cancelled))
      ∧ (∀ (pre : List Frontend.Task) (t : Frontend.Task) (post : List Frontend.Task),
          (∀ u ∈ pre, (Frontend.poll u).stopPolling = false) →
          (Frontend.poll t).stopPolling = true →
          Frontend.pollTrace (pre ++ t :: post) = pre ++ [t]) := by
  constructor
  · intro t
    cases h : t.status <;> simp [Frontend.poll, Frontend.completedStatuses, h]
  · intro pre t post hpre ht
    induction pre with
    | nil => simp [Frontend.pollTrace, ht]
    | cons a as ih =>
      have ha := hpre a (by simp)
      simp only [List.cons_append, Frontend.pollTrace, ha, Bool.false_eq_true,
        if_false, List.cons.injEq, true_and]
      exact ih (fun u hu => hpre u (by simp [hu]))

def samplePending : Frontend.Task :=
  { task_id := "t1", status := .pending, error := none }

def sampleCompleted : Frontend.Task :=
  { task_id := "t1", status := .completed, error := none }

def sampleCancelled : Frontend.Task :=
  { task_id := "t2", status := .cancelled, error := none }

/-- Witness for C8: with one pending observation followed by a completed one,
the polling run observes both and stops at the completed observation. -/
theorem useTask_polls_until_first_terminal_witness :
    Frontend.pollTrace ([samplePending] ++ sampleCompleted :: [samplePending])
      = [samplePending] ++ [sampleCompleted] :=
  useTask_polls_until_first_terminal.2 [samplePending] sampleCompleted
    [samplePending] (by decide) (by decide)

/-- Claim C9: in the useTask polling hook a cancelled task ends polling
silently; onComplete fires exactly on a completed observation, onError (with
the task's error or the default message) exactly on a failed one, and a
cancelled observation stops polling while firing neither callback. -/
theorem useTask_callbacks_by_status (t : Frontend.Task) :
    ((Frontend.poll t).callback = .onComplete t ↔ t.status = .completed)
      ∧ (t.status = .failed →
          (Frontend.poll t).callback
            = .onError (Frontend.jsOrString t.error "任务执行失败"))
      ∧ (∀ m, (Frontend.poll t).callback = .onError m →
          t.status = .failed ∧ m = Frontend.jsOrString t.error "任务执行失败")
      ∧ (t.status = .cancelled →
          (Frontend.poll t).callback = .noCallback
            ∧ (Frontend.poll t).stopPolling = true) := by
  cases h : t.status <;>
    simp [Frontend.poll, Frontend.completedStatuses, h, eq_comm]

/-- Witness for C9: at a concrete cancelled task, polling stops and no
callback fires. -/
theorem useTask_callbacks_by_status_witness :
    (Frontend.poll sampleCancelled).callback = .noCallback
      ∧ (Frontend.poll sampleCancelled).stopPolling = true :=
  (useTask_callbacks_by_status sampleCancelled).2.2.2 (by decide)

/-- Claim C10: TaskCard rendering is total over task types; any task_type
outside the five known ones falls back to the text_to_image display
configuration instead of failing on an undefined lookup. -/
theorem taskCard_unknown_type_falls_back (ty : String)
    (h : ¬ ty ∈ ["text_to_image", "image_edit", "batch_edit",
                 "text_to_video", "image_to_video"]) :
    Frontend.taskCardConfig ty = Frontend.textToImageDisplay := by
  have hnone : Frontend.lookupTaskTypeConfig ty = none := by
    simp only [Frontend.lookupTaskTypeConfig, Option.map_eq_none']
    rw [List.find?_eq_none]
    intro p hp
    simp only [Frontend.taskTypeConfig, List.mem_cons, List.not_mem_nil,
      or_false] at hp
    simp only [List.mem_cons, List.not_mem_nil, or_false] at h
    push_neg at h
    rcases hp with rfl | rfl | rfl | rfl | rfl <;>
      simp_all [eq_comm]
  simp [Frontend.taskCardConfig, hnone]

/-- Witness for C10: a concrete unknown task type renders with the
text_to_image configuration. -/
theorem taskCard_unknown_type_falls_back_witness :
    Frontend.taskCardConfig "three_d_model" = Frontend.textToImageDisplay :=
  taskCard_unknown_type_falls_back "three_d_model" (by decide)

/-- Claim C6: a submission whose parameters are outside the declared bounds is
rejected with a validation error and has no side effects.  handleFile rejects
a file over 20MB or of a type outside {jpeg, png, webp}, leaving the upload
state (and hence any later submission) untouched; addPrompt refuses to grow
the batch prompt list past 10 entries, leaving the list unchanged. -/
theorem invalid_params_rejected_without_side_effects :
    (∀ (file : Frontend.JsFile) (st : Frontend.UploadState),
        (20 * 1024 * 1024 < file.size ∨ ¬ file.type ∈ Frontend.allowedTypes) →
        (Frontend.handleFile file st).2 = st
          ∧ (Frontend.handleFile file st).1 ≠ .accepted)
      ∧ (∀ prompts : List String, 10 ≤ prompts.length →
          (Frontend.addPrompt prompts).2 = prompts
            ∧ (Frontend.addPrompt prompts).1 ≠ .accepted) := by
  constructor
  · intro file st h
    unfold Frontend.handleFile
    by_cases h1 : file.size > 20 * 1024 * 1024
    · simp [h1]
    · have h2 : ¬ file.type ∈ Frontend.allowedTypes := by
        rcases h with h | h
        · omega
        · exact h
      rw [if_neg h1, if_pos h2]
      simp
  · intro prompts h
    unfold Frontend.addPrompt
    rw [if_pos h]
    simp

/-- Witness for C6: a concrete 21MB png upload is rejected and changes
nothing, and an 11th batch prompt is refused. -/
theorem invalid_params_rejected_without_side_effects_witness :
    ((Frontend.handleFile { size := 21 * 1024 * 1024, type := "image/png" }
        { selectedFile := none, previewShown := false }).2
      = { selectedFile := none, previewShown := false }
      ∧ (Frontend.handleFile { size := 21 * 1024 * 1024, type := "image/png" }
          { selectedFile := none, previewShown := false }).1 ≠ .accepted)
      ∧ ((Frontend.addPrompt ["a", "b", "c", "d", "e", "f", "g", "h", "i", "j"]).2
          = ["a", "b", "c", "d", "e", "f", "g", "h", "i", "j"]
        ∧ (Frontend.addPrompt
            ["a", "b", "c", "d", "e", "f", "g", "h", "i", "j"]).1 ≠ .accepted) :=
  ⟨invalid_params_rejected_without_side_effects.1
      { size := 21 * 1024 * 1024, type := "image/png" }
      { selectedFile := none, previewShown := false } (by decide),
    invalid_params_rejected_without_side_effects.2
      ["a", "b", "c", "d", "e", "f", "g", "h", "i", "j"] (by decide)⟩

/-- Claim C1: FIFO dispatch with no priority inversion.  Whenever the
dispatcher selects the task at position j for a freed slot, no task submitted
earlier (at any position i < j) is still pending: a later-submitted task is
never dispatched ahead of an earlier-still-pending one. -/
theorem dispatch_is_fifo (s : Engine.EngState) (freeSlots j : Nat)
    (hdisp : (Engine.dispatch s freeSlots).2 = some j) :
    ∀ (i : Nat) (hi : i < s.tasks.length), i < j →
      (s.tasks.get ⟨i, hi⟩).status ≠ .pending := by
  intro i hi hij
  by_cases hf : freeSlots = 0
  · simp [Engine.dispatch, hf] at hdisp
  · rw [Engine.dispatch, if_neg hf] at hdisp
    cases hfp : Engine.firstPendingIdx s.tasks with
    | none => rw [hfp] at hdisp; simp at hdisp
    | some k =>
      rw [hfp] at hdisp
      simp only [Option.some.injEq] at hdisp
      subst hdisp
      exact Engine.firstPendingIdx_least s.tasks k hfp i hi hij

def fifoSample : Engine.EngState :=
  { tasks := [{ id := 0, owner := 0, cost := 1, status := .completed,
                resultRef := some 3, error := none, deletedAt := none },
              { id := 1, owner := 0, cost := 1, status := .pending,
                resultRef := none, error := none, deletedAt := none }],
    quotas := [], nextId := 2 }

/-- Witness for C1: in a state whose first task is terminal and whose second
is pending, the dispatcher selects position 1, and the theorem certifies the
earlier task is not still pending. -/
theorem dispatch_is_fifo_witness :
    (Engine.dispatch fifoSample 1).2 = some 1
      ∧ (fifoSample.tasks.get ⟨0, by decide⟩).status ≠ .pending :=
  ⟨by decide, dispatch_is_fifo fifoSample 1 1 (by decide) 0 (by decide) (by decide)⟩

/-- Claim C2: a submission by an owner whose quota is insufficient
(used + cost > limit) is rejected with QuotaExceeded, creates no Task, and
leaves the owner's used counter unchanged. -/
theorem submit_insufficient_quota_rejected (s : Engine.EngState) (owner cost : Nat)
    (h : (Engine.getQuota s owner).used + cost > (Engine.getQuota s owner).limit) :
    Engine.submit s owner cost = (s, .quotaExceeded)
      ∧ (Engine.submit s owner cost).1.tasks = s.tasks
      ∧ (Engine.getQuota (Engine.submit s owner cost).1 owner).used
          = (Engine.getQuota s owner).used := by
  have hr : Engine.reserve (Engine.getQuota s owner) cost = none := by
    unfold Engine.reserve
    rw [if_pos h]
  refine ⟨?_, ?_, ?_⟩ <;> simp [Engine.submit, hr]

def quotaFullState : Engine.EngState :=
  { tasks := [], quotas := [(7, { used := 5, limit := 5 })], nextId := 0 }

/-- Witness for C2: with limit 5 and used 5, submitting a cost-1 task for
owner 7 returns QuotaExceeded, the task list stays empty, and used stays 5. -/
theorem submit_insufficient_quota_rejected_witness :
    Engine.submit quotaFullState 7 1 = (quotaFullState, .quotaExceeded)
      ∧ (Engine.submit quotaFullState 7 1).1.tasks = quotaFullState.tasks
      ∧ (Engine.getQuota (Engine.submit quotaFullState 7 1).1 7).used
          = (Engine.getQuota quotaFullState 7).used :=
  submit_insufficient_quota_rejected quotaFullState 7 1 (by decide)

def cancelledRun : Engine.EngState :=
  Engine.runOps [(0, { used := 0, limit := 5 })] [.submit 0 1, .cancel 0]

/-- Claim C3 (counterexample): cancelled is a terminal status, yet the task of
this reachable engine state — submitted and then cancelled while pending — has
neither result_ref nor error populated, so it is false that exactly one of the
two is populated for every terminal task. -/
theorem cancelled_task_populates_neither :
    Engine.EngStatus.isTerminal .cancelled = true
      ∧ cancelledRun.tasks =
          [{ id := 0, owner := 0, cost := 1, status := .cancelled,
             resultRef := none, error := none, deletedAt := none }] := by
  constructor
  · rfl
  · rfl

/-- Claim C3 (amended): in every reachable engine state, a terminal task has
at most one of result_ref and error populated: a completed task has a
result_ref and no error, a failed task has an error and no result_ref, and a
cancelled task has neither. -/
theorem terminal_task_fields (quotas : List (Nat × Engine.QuotaRecord))
    (ops : List Engine.EngOp) :
    ∀ t ∈ (Engine.runOps quotas ops).tasks,
      (t.status = .completed → t.resultRef.isSome = true ∧ t.error = none)
        ∧ (t.status = .failed → t.error.isSome = true ∧ t.resultRef = none)
        ∧ (t.status = .cancelled → t.resultRef = none ∧ t.error = none) := by
  intro t ht
  have h := Engine.runOps_ok quotas ops t ht
  refine ⟨fun hc => ?_, fun hf => ?_, fun hx => ?_⟩
  · simpa [Engine.statusFieldsOk, hc] using h
  · simpa [Engine.statusFieldsOk, hf] using h
  · simpa [Engine.statusFieldsOk, hx] using h

/-- Witness for C3 (amended): a run that submits, dispatches and completes a
task ends with a completed task carrying a result_ref and no error. -/
theorem terminal_task_fields_witness :
    ({ id := 0, owner := 0, cost := 1, status := .completed,
       resultRef := some 42, error := none, deletedAt := none }
        : Engine.EngTask).resultRef.isSome = true
      ∧ ({ id := 0, owner := 0, cost := 1, status := .completed,
           resultRef := some 42, error := none, deletedAt := none }
            : Engine.EngTask).error = none :=
  (terminal_task_fields [(0, { used := 0, limit := 5 })]
      [.submit 0 1, .dispatch 1, .complete 0 42]
      { id := 0, owner := 0, cost := 1, status := .completed,
        resultRef := some 42, error := none, deletedAt := none }
      (by decide)).1 (by decide)

/-- Claim C4: a submission with sufficient quota returns the new task's id
(the engine's next id) together with the current queue depth — the number of
pending tasks once the submission is enqueued, which is one more than before —
and the created task, appended at the back of the task list, starts pending
with no result, error or deletion mark. -/
theorem submit_returns_id_and_depth (s : Engine.EngState) (owner cost : Nat)
    (h : (Engine.getQuota s owner).used + cost ≤ (Engine.getQuota s owner).limit) :
    (Engine.submit s owner cost).2
        = .accepted s.nextId
            (Engine.countPending (Engine.submit s owner cost).1.tasks)
      ∧ (Engine.submit s owner cost).1.tasks.getLast?
          = some { id := s.nextId, owner := owner, cost := cost,
                   status := .pending, resultRef := none, error := none,
                   deletedAt := none }
      ∧ Engine.countPending (Engine.submit s owner cost).1.tasks
          = Engine.countPending s.tasks + 1 := by
  have hr : Engine.reserve (Engine.getQuota s owner) cost
      = some { Engine.getQuota s owner with
                used := (Engine.getQuota s owner).used + cost } := by
    unfold Engine.reserve
    rw [if_neg (by omega)]
  refine ⟨?_, ?_, ?_⟩ <;>
    simp [Engine.submit, hr, Engine.countPending, Engine.setQuota,
      List.filter_append]

def freshQuotaState : Engine.EngState :=
  { tasks := [], quotas := [(7, { used := 0, limit := 5 })], nextId := 0 }

/-- Witness for C4: submitting for owner 7 with quota 0 of 5 used returns task
id 0 at queue depth 1, and the created task is pending. -/
theorem submit_returns_id_and_depth_witness :
    (Engine.submit freshQuotaState 7 1).2
        = .accepted freshQuotaState.nextId
            (Engine.countPending (Engine.submit freshQuotaState 7 1).1.tasks)
      ∧ (Engine.submit freshQuotaState 7 1).1.tasks.getLast?
          = some { id := freshQuotaState.nextId, owner := 7, cost := 1,
                   status := .pending, resultRef := none, error := none,
                   deletedAt := none }
      ∧ Engine.countPending (Engine.submit freshQuotaState 7 1).1.tasks
          = Engine.countPending freshQuotaState.tasks + 1 :=
  submit_returns_id_and_depth freshQuotaState 7 1 (by decide)

/-- Claim C7: cancelling a task that is already terminal is a no-op returning
the task's current state: the whole engine state — the task's status,
result_ref, error, and every quota counter — is unchanged, and the call
returns the task as it stands. -/
theorem cancel_terminal_is_noop (s : Engine.EngState) (id : Nat)
    (t : Engine.EngTask)
    (hfind : s.tasks.find? (fun u => u.id = id) = some t)
    (hterm : t.status.isTerminal = true) :
    Engine.cancelTask s id = (s, some t) := by
  unfold Engine.cancelTask
  rw [hfind]
  simp [hterm]

def terminalTaskState : Engine.EngState :=
  { tasks := [{ id := 0, owner := 0, cost := 1, status := .completed,
                resultRef := some 9, error := none, deletedAt := none }],
    quotas := [(0, { used := 1, limit := 5 })], nextId := 1 }

/-- Witness for C7: cancelling the concrete completed task changes nothing
and returns it as-is. -/
theorem cancel_terminal_is_noop_witness :
    Engine.cancelTask terminalTaskState 0
      = (terminalTaskState,
          some { id := 0, owner := 0, cost := 1, status := .completed,
                 resultRef := some 9, error := none, deletedAt := none }) :=
  cancel_terminal_is_noop terminalTaskState 0
    { id := 0, owner := 0, cost := 1, status := .completed,
      resultRef := some 9, error := none, deletedAt := none }
    (by decide) (by decide)

/-- Claim C5: for a completed task, soft_delete followed by restore is a round
trip: while deleted the task is absent from active history, the restore
returns the engine to exactly its prior state, and the task reappears in
list_history with its result_ref identical to before the soft-delete (it is
the very same record). -/
theorem soft_delete_restore_round_trip (s : Engine.EngState)
    (l₁ l₂ : List Engine.EngTask) (t : Engine.EngTask) (now : Nat)
    (hsplit : s.tasks = l₁ ++ t :: l₂)
    (hc : t.status = .completed)
    (hd : t.deletedAt = none)
    (h₁ : ∀ u ∈ l₁, u.id ≠ t.id)
    (h₂ : ∀ u ∈ l₂, u.id ≠ t.id) :
    (∀ u ∈ Engine.listHistory (Engine.softDeleteTask s t.id now), u.id ≠ t.id)
      ∧ Engine.restoreTask (Engine.softDeleteTask s t.id now) t.id = s
      ∧ t ∈ Engine.listHistory
          (Engine.restoreTask (Engine.softDeleteTask s t.id now) t.id) := by
  have hterm : t.status.isTerminal = true := by rw [hc]; rfl
  have hset1 : ∀ u ∈ l₁, Engine.setDeleted t.id now u = u := by
    intro u hu
    unfold Engine.setDeleted
    rw [if_neg (fun hg => h₁ u hu hg.1)]
  have hset2 : ∀ u ∈ l₂, Engine.setDeleted t.id now u = u := by
    intro u hu
    unfold Engine.setDeleted
    rw [if_neg (fun hg => h₂ u hu hg.1)]
  have hsett : Engine.setDeleted t.id now t = { t with deletedAt := some now } := by
    unfold Engine.setDeleted
    rw [if_pos ⟨rfl, hterm⟩]
  have hclr1 : ∀ u ∈ l₁, Engine.clearDeleted t.id u = u := by
    intro u hu
    unfold Engine.clearDeleted
    rw [if_neg (fun hg => h₁ u hu hg.1)]
  have hclr2 : ∀ u ∈ l₂, Engine.clearDeleted t.id u = u := by
    intro u hu
    unfold Engine.clearDeleted
    rw [if_neg (fun hg => h₂ u hu hg.1)]
  have hclrt : Engine.clearDeleted t.id { t with deletedAt := some now } = t := by
    unfold Engine.clearDeleted
    rw [if_pos ⟨rfl, hterm⟩]
    rcases t with ⟨a, b, c, d, e, f, g⟩
    simp only at hd
    simp [hd]
  have hs1 : (Engine.softDeleteTask s t.id now).tasks
      = l₁ ++ { t with deletedAt := some now } :: l₂ := by
    simp only [Engine.softDeleteTask, hsplit, List.map_append, List.map_cons,
      Engine.map_fixes l₁ hset1, Engine.map_fixes l₂ hset2, hsett]
  have htasks : (s.tasks.map (Engine.setDeleted t.id now)).map
      (Engine.clearDeleted t.id) = s.tasks := by
    rw [hsplit]
    simp only [List.map_append, List.map_cons,
      Engine.map_fixes l₁ hset1, Engine.map_fixes l₂ hset2, hsett,
      Engine.map_fixes l₁ hclr1, Engine.map_fixes l₂ hclr2, hclrt]
  have hround : Engine.restoreTask (Engine.softDeleteTask s t.id now) t.id = s := by
    show { s with
      tasks := (s.tasks.map (Engine.setDeleted t.id now)).map
        (Engine.clearDeleted t.id) } = s
    rw [htasks]
  refine ⟨?_, hround, ?_⟩
  · intro u hu
    rw [Engine.listHistory, hs1] at hu
    simp only [List.mem_filter, List.mem_append, List.mem_cons,
      decide_eq_true_eq] at hu
    rcases hu with ⟨hm | rfl | hm, hdel⟩
    · exact h₁ u hm
    · simp at hdel
    · exact h₂ u hm
  · rw [hround]
    simp [Engine.listHistory, hsplit, List.mem_filter, hd]

def roundTripState : Engine.EngState :=
  { tasks := [{ id := 0, owner := 0, cost := 1, status := .completed,
                resultRef := some 9, error := none, deletedAt := none }],
    quotas := [(0, { used := 1, limit := 5 })], nextId := 1 }

/-- Witness for C5: soft-deleting and then restoring the concrete completed
task returns the engine exactly to its prior state. -/
theorem soft_delete_restore_round_trip_witness :
    Engine.restoreTask (Engine.softDeleteTask roundTripState 0 11) 0
      = roundTripState :=
  (soft_delete_restore_round_trip roundTripState []
    [] { id := 0, owner := 0, cost := 1, status := .completed,
         resultRef := some 9, error := none, deletedAt := none } 11
    rfl rfl rfl (by simp) (by simp)).2.1

/-- The client-side guard of TextToVideoPage mirrors the ledger check: with a
non-empty prompt and fewer than 5 remaining uses today, the mutation never
fires. -/
theorem handleSubmit_insufficient (prompt : String) (remaining : Int)
    (hp : prompt.trim ≠ "") (h : remaining < 5) :
    Frontend.handleSubmit prompt remaining = .quotaInsufficient := by
  unfold Frontend.handleSubmit
  rw [if_neg hp, if_pos (by unfold Frontend.videoQuotaCost; omega)]
